import Mathlib

/-!
Shallow embedding of `src/wasm32_bindgen.rs` (the wasm-bindgen backend of
`getrandom`): provider resolution (`getrandom_init`), the per-thread
resolution cache (`RNG_SOURCE`), and the fill routine (`getrandom_inner`)
with its browser chunking loop.

The foreign capability surface (the `#[wasm_bindgen] extern` block) is
modelled as data: JavaScript values observed by the probe are either
`undefined` or crypto-shaped objects, and the entropy providers are an
oracle `entropy : Nat → Nat` giving the byte stream produced by the host
provider, where the i-th byte written at absolute destination offset i
comes from position i of the stream.

`getrandom_inner` additionally returns observable instrumentation that the
code determines exactly: how many times `getrandom_init` ran (the probe
counter of the spec's test double) and the trace of provider fill calls as
(absolute offset, length) pairs.
-/

namespace Getrandom

/-- Modelled from the spec: the two error kinds of the error taxonomy
(`BINDGEN_CRYPTO_UNDEF` / `BINDGEN_GRV_UNDEF` are declared in
`crate::error`, outside the provided source file). -/
inductive Error where
  | cryptoUndefined
  | getRandomValuesUndefined
  deriving DecidableEq, Repr

/-- A browser cryptographic capability object (`BrowserCrypto` in the
source). `grvFnUndefined` records whether its `getRandomValues` property is
`undefined` (the source's `crypto.get_random_values_fn().is_undefined()`);
`tag` distinguishes distinct host objects. -/
structure BrowserCrypto where
  grvFnUndefined : Bool
  tag : Nat
  deriving DecidableEq, Repr

/-- The server-side cryptographic module (`NodeCrypto` in the source). -/
structure NodeCrypto where
  tag : Nat
  deriving DecidableEq, Repr

/-- A JavaScript value as observed by the resolution probe: `undefined`, or
a crypto-shaped object. -/
inductive JsValue where
  | undefinedVal
  | definedVal (c : BrowserCrypto)
  deriving DecidableEq, Repr

/-- `JsValue::is_undefined`. -/
def JsValue.is_undefined : JsValue → Bool
  | .undefinedVal => true
  | .definedVal _ => false

/-- The browser-style global object (`Self_` in the source) with its two
candidate properties `crypto` and `msCrypto`. -/
structure Self_ where
  crypto : JsValue
  ms_crypto : JsValue
  deriving DecidableEq, Repr

/-- `enum RngSource { Node(NodeCrypto), Browser(BrowserCrypto) }`. -/
inductive RngSource where
  | Node (n : NodeCrypto)
  | Browser (c : BrowserCrypto)
  deriving DecidableEq, Repr

/-- The host environment of one execution context: the target's
`mem::size_of::<usize>()`, the outcome of `Global::get_self()` (`none`
models the `Err` case: no browser-style global), the module returned by
`MODULE.require("crypto")`, and the provider byte-stream oracle. -/
structure Env where
  usizeSize : Nat
  get_self : Option Self_
  requireCrypto : NodeCrypto
  entropy : Nat → Nat

/-- The guarded match of `getrandom_init` over
`(self_.crypto(), self_.ms_crypto())`: the first component is taken when it
is not `undefined`, else the second when it is not `undefined`, else the
probe fails with `BINDGEN_CRYPTO_UNDEF`. -/
def selectCrypto (self_ : Self_) : Except Error BrowserCrypto :=
  match self_.crypto, self_.ms_crypto with
  | JsValue.definedVal c, _ => Except.ok c
  | _, JsValue.definedVal c => Except.ok c
  | _, _ => Except.error Error.cryptoUndefined

/-- `getrandom_init`: if a browser-style global exists, select the crypto
capability object (standard name preferred over the legacy alias), fail
with `BINDGEN_GRV_UNDEF` when its `getRandomValues` is itself `undefined`,
else succeed with a `Browser` source. Without a global, load the node
module `require("crypto")` and succeed with a `Node` source. -/
def getrandom_init (env : Env) : Except Error RngSource :=
  match env.get_self with
  | some self_ =>
    match selectCrypto self_ with
    | Except.error e => Except.error e
    | Except.ok crypto =>
      if crypto.grvFnUndefined then Except.error Error.getRandomValuesUndefined
      else Except.ok (RngSource.Browser crypto)
  | none => Except.ok (RngSource.Node env.requireCrypto)

/-- The browser fill loop
`for chunk in dest.chunks_mut(65536) { let arr = Uint8Array::new_with_length(chunk.len() as u32); n.get_random_values(&arr); arr.copy_to(chunk); }`.
`pos` is the absolute destination offset of the current chunk; the transfer
array filled by the provider call at offset `pos` holds bytes
`e (pos + i)` of the oracle stream, and `copy_to` replaces the chunk with
it. Returns the buffer contents after the loop together with the trace of
provider calls as (offset, length) pairs. -/
def browserLoop (e : Nat → Nat) (pos : Nat) (dest : List Nat) :
    List Nat × List (Nat × Nat) :=
  if h : dest = [] then ([], [])
  else
    let chunk := dest.take 65536
    let rest := dest.drop 65536
    let arr := (List.range chunk.length).map fun i => e (pos + i)
    let r := browserLoop e (pos + chunk.length) rest
    (arr ++ r.1, (pos, chunk.length) :: r.2)
termination_by dest.length
decreasing_by
  have hpos : 0 < dest.length := List.length_pos.mpr h
  simp only [List.length_drop]
  omega

/-- The dispatch `match source.as_ref().unwrap() { Node(n) =>
n.random_fill_sync(dest), Browser(n) => <chunk loop> }`: the node provider
fills the whole buffer in a single synchronous call, the browser provider
runs the chunk loop. Returns buffer contents after the fill and the trace
of provider calls. -/
def fillDispatch (env : Env) (s : RngSource) (dest : List Nat) :
    List Nat × List (Nat × Nat) :=
  match s with
  | RngSource.Node _ => ((List.range dest.length).map env.entropy, [(0, dest.length)])
  | RngSource.Browser _ => browserLoop env.entropy 0 dest

/-- Outcome of one `getrandom_inner` call: the `assert_eq!` panic, an
`Err(e)`, or `Ok(())`. -/
inductive Outcome where
  | panicked
  | failed (e : Error)
  | ok
  deriving DecidableEq, Repr

/-- Observable result of one `getrandom_inner` call: its outcome, the
destination buffer contents after the call, the `RNG_SOURCE` cache slot
after the call, how many times `getrandom_init` ran during the call, and
the trace of provider fill calls as (offset, length) pairs. -/
structure CallResult where
  outcome : Outcome
  buf : List Nat
  cache : Option RngSource
  initRuns : Nat
  calls : List (Nat × Nat)
  deriving DecidableEq, Repr

/-- `getrandom_inner(dest)`: first `assert_eq!(mem::size_of::<usize>(), 4)`;
then inside `RNG_SOURCE.with`, if the cache slot is empty run
`getrandom_init` (on `Err` the `?` operator propagates the error and the
slot stays empty), store the source on success, and dispatch the fill on
the cached source. `cache` is the `RNG_SOURCE` slot of this execution
context before the call. -/
def getrandom_inner (env : Env) (cache : Option RngSource) (dest : List Nat) :
    CallResult :=
  if env.usizeSize = 4 then
    match cache with
    | none =>
      match getrandom_init env with
      | Except.error e => ⟨Outcome.failed e, dest, none, 1, []⟩
      | Except.ok s =>
        let r := fillDispatch env s dest
        ⟨Outcome.ok, r.1, some s, 1, r.2⟩
    | some s =>
      let r := fillDispatch env s dest
      ⟨Outcome.ok, r.1, some s, 0, r.2⟩
  else ⟨Outcome.panicked, dest, cache, 0, []⟩

/-- The chunk boundaries `chunks_mut(65536)` produces on a buffer of length
`n` starting at absolute offset `pos`, as (offset, length) pairs. -/
def chunkSpecs (pos n : Nat) : List (Nat × Nat) :=
  if n = 0 then []
  else if n ≤ 65536 then [(pos, n)]
  else (pos, 65536) :: chunkSpecs (pos + 65536) (n - 65536)
termination_by n
decreasing_by omega

/-- A sequence of `getrandom_inner` calls in one execution context,
threading the `RNG_SOURCE` cache slot from call to call. -/
def runCalls (env : Env) (cache : Option RngSource) :
    List (List Nat) → List CallResult
  | [] => []
  | d :: ds =>
    let r := getrandom_inner env cache d
    r :: runCalls env r.cache ds

/-- A concrete browser-hosted environment: the global exists, `crypto` is a
functional capability object, `msCrypto` is undefined. -/
def envBrowser : Env :=
  ⟨4, some ⟨JsValue.definedVal ⟨false, 0⟩, JsValue.undefinedVal⟩, ⟨0⟩, fun i => i + 1⟩

/-- The capability object of `envBrowser`. -/
def cBrowser : BrowserCrypto := ⟨false, 0⟩

/-- A concrete server-side environment: no browser-style global. -/
def envNode : Env := ⟨4, none, ⟨0⟩, fun i => i + 1⟩

/-- A concrete browser-hosted environment where both `crypto` and
`msCrypto` are undefined. -/
def envNoCrypto : Env :=
  ⟨4, some ⟨JsValue.undefinedVal, JsValue.undefinedVal⟩, ⟨0⟩, fun i => i + 1⟩

/-- A concrete browser-hosted environment whose `crypto` object has an
undefined `getRandomValues` method. -/
def envStubCrypto : Env :=
  ⟨4, some ⟨JsValue.definedVal ⟨true, 0⟩, JsValue.undefinedVal⟩, ⟨0⟩, fun i => i + 1⟩

/-- A concrete environment on a target whose pointer width is 8, not 4. -/
def envWrongUsize : Env := ⟨8, none, ⟨0⟩, fun i => i + 1⟩

/-- A concrete browser-hosted environment where both `crypto` (tag 1) and
`msCrypto` (tag 2) are defined and functional. -/
def envBothCrypto : Env :=
  ⟨4, some ⟨JsValue.definedVal ⟨false, 1⟩, JsValue.definedVal ⟨false, 2⟩⟩, ⟨0⟩,
    fun i => i + 1⟩

/-- A concrete browser-hosted environment where `crypto` is undefined and
`msCrypto` (tag 2) is defined and functional. -/
def envMsOnly : Env :=
  ⟨4, some ⟨JsValue.undefinedVal, JsValue.definedVal ⟨false, 2⟩⟩, ⟨0⟩, fun i => i + 1⟩

/-- Both components of the browser chunk loop at once: the buffer after the
loop is the oracle stream over `[pos, pos + dest.length)`, and the trace of
provider calls is exactly the chunk decomposition of that interval. -/
theorem browserLoop_spec (e : Nat → Nat) :
    ∀ n pos (dest : List Nat), dest.length = n →
      (browserLoop e pos dest).1 = (List.range' pos n).map e ∧
      (browserLoop e pos dest).2 = chunkSpecs pos n := by
  intro n
  induction n using Nat.strong_induction_on with
  | _ n ih =>
    intro pos dest hlen
    rw [browserLoop, chunkSpecs]
    by_cases hd : dest = []
    · subst hd
      simp only [List.length_nil] at hlen
      subst hlen
      simp
    · rw [dif_neg hd]
      have hpos : 0 < dest.length := List.length_pos.mpr hd
      have hn0 : n ≠ 0 := by omega
      have htake : (dest.take 65536).length = min 65536 n := by
        simp [List.length_take, hlen]
      have hdrop : (dest.drop 65536).length = n - 65536 := by
        simp [List.length_drop, hlen]
      have hlt : n - 65536 < n := by omega
      obtain ⟨ih1, ih2⟩ :=
        ih (n - 65536) hlt (pos + (dest.take 65536).length) (dest.drop 65536) hdrop
      dsimp only
      rw [ih1, ih2, if_neg hn0]
      by_cases hle : n ≤ 65536
      · have hmin : min 65536 n = n := Nat.min_eq_right hle
        have hsub : n - 65536 = 0 := by omega
        rw [if_pos hle]
        constructor
        · rw [htake, hmin, hsub, List.range'_zero, List.map_nil, List.append_nil,
            List.range'_eq_map_range, List.map_map]
          rfl
        · rw [htake, hmin, hsub, chunkSpecs]
          simp
      · have hmin : min 65536 n = 65536 := Nat.min_eq_left (by omega)
        rw [if_neg hle]
        constructor
        · rw [htake, hmin]
          have harr : (List.range 65536).map (fun i => e (pos + i)) =
              (List.range' pos 65536).map e := by
            rw [List.range'_eq_map_range, List.map_map]
            rfl
          rw [harr, ← List.map_append, List.range'_append_1]
          have hsum : n - 65536 + 65536 = n := by omega
          rw [hsum]
        · rw [htake, hmin]

/-- The chunk decomposition of `[pos, pos + n)` flattens back to exactly
that interval: chunks are consecutive, in order of increasing offset, and
cover every index exactly once. -/
theorem chunkSpecs_flatMap :
    ∀ n pos, (chunkSpecs pos n).flatMap (fun p => List.range' p.1 p.2) =
      List.range' pos n := by
  intro n
  induction n using Nat.strong_induction_on with
  | _ n ih =>
    intro pos
    rw [chunkSpecs]
    by_cases h0 : n = 0
    · subst h0
      simp
    · rw [if_neg h0]
      by_cases hle : n ≤ 65536
      · rw [if_pos hle]
        simp
      · rw [if_neg hle]
        rw [List.flatMap_cons, ih (n - 65536) (by omega) (pos + 65536)]
        dsimp only
        rw [List.range'_append_1]
        congr 1
        omega

/-- Every chunk the decomposition produces has length between 1 and
65536. -/
theorem chunkSpecs_bounds :
    ∀ n pos p, p ∈ chunkSpecs pos n → 1 ≤ p.2 ∧ p.2 ≤ 65536 := by
  intro n
  induction n using Nat.strong_induction_on with
  | _ n ih =>
    intro pos p hp
    rw [chunkSpecs] at hp
    by_cases h0 : n = 0
    · rw [if_pos h0] at hp
      simp at hp
    · rw [if_neg h0] at hp
      by_cases hle : n ≤ 65536
      · rw [if_pos hle] at hp
        rw [List.mem_singleton] at hp
        subst hp
        exact ⟨by omega, hle⟩
      · rw [if_neg hle] at hp
        rcases List.mem_cons.mp hp with h | h
        · subst h
          exact ⟨by omega, by omega⟩
        · exact ih (n - 65536) (by omega) (pos + 65536) p h

/-- A `getrandom_inner` call that finds the cache populated dispatches the
fill on the cached source, runs no probe, and keeps the cache. -/
theorem getrandom_inner_cached (env : Env) (s : RngSource) (dest : List Nat)
    (h4 : env.usizeSize = 4) :
    getrandom_inner env (some s) dest =
      ⟨Outcome.ok, (fillDispatch env s dest).1, some s, 0, (fillDispatch env s dest).2⟩ := by
  unfold getrandom_inner
  rw [if_pos h4]

/-- A `getrandom_inner` call on an empty cache with a successful probe
stores the resolved source and dispatches the fill on it. -/
theorem getrandom_inner_resolve_ok (env : Env) (s : RngSource) (dest : List Nat)
    (h4 : env.usizeSize = 4) (hres : getrandom_init env = Except.ok s) :
    getrandom_inner env none dest =
      ⟨Outcome.ok, (fillDispatch env s dest).1, some s, 1, (fillDispatch env s dest).2⟩ := by
  unfold getrandom_inner
  rw [if_pos h4]
  rw [hres]

/-- The browser dispatch in closed form: the buffer becomes the oracle
stream over `[0, dest.length)` and the call trace is the chunk
decomposition of the length. -/
theorem fillDispatch_browser (env : Env) (c : BrowserCrypto) (dest : List Nat) :
    fillDispatch env (RngSource.Browser c) dest =
      ((List.range dest.length).map env.entropy, chunkSpecs 0 dest.length) := by
  obtain ⟨h1, h2⟩ := browserLoop_spec env.entropy dest.length 0 dest rfl
  unfold fillDispatch
  rw [Prod.ext_iff]
  refine ⟨?_, ?_⟩
  · rw [h1, ← List.range_eq_range']
  · exact h2

/-- C1: when `getrandom_inner` succeeds on the browser path, the provider
calls partition the destination exactly: the buffer after the call is
provider output at every byte (same length, byte i comes from stream
position i), and the flattened call trace is precisely the index interval
`[0, dest.length)` — chunks consecutive, processed in order of increasing
offset, and no index covered by more than one provider call. -/
theorem claim_C1_browser_fill_partitions (env : Env) (c : BrowserCrypto)
    (cache : Option RngSource) (dest : List Nat)
    (h4 : env.usizeSize = 4)
    (hpath : cache = some (RngSource.Browser c) ∨
      (cache = none ∧ getrandom_init env = Except.ok (RngSource.Browser c))) :
    (getrandom_inner env cache dest).outcome = Outcome.ok ∧
    (getrandom_inner env cache dest).buf = (List.range dest.length).map env.entropy ∧
    (getrandom_inner env cache dest).buf.length = dest.length ∧
    ((getrandom_inner env cache dest).calls.flatMap fun p => List.range' p.1 p.2) =
      List.range dest.length := by
  rcases hpath with hc | ⟨hc, hres⟩
  · subst hc
    rw [getrandom_inner_cached env (RngSource.Browser c) dest h4, fillDispatch_browser]
    refine ⟨rfl, rfl, by simp, ?_⟩
    dsimp only
    rw [chunkSpecs_flatMap dest.length 0, List.range_eq_range']
  · subst hc
    rw [getrandom_inner_resolve_ok env (RngSource.Browser c) dest h4 hres,
      fillDispatch_browser]
    refine ⟨rfl, rfl, by simp, ?_⟩
    dsimp only
    rw [chunkSpecs_flatMap dest.length 0, List.range_eq_range']

/-- Witness for C1: a concrete three-byte fill in the browser environment. -/
theorem claim_C1_browser_fill_partitions_witness :
    (getrandom_inner envBrowser (some (RngSource.Browser cBrowser)) [0, 0, 0]).outcome =
      Outcome.ok ∧
    (getrandom_inner envBrowser (some (RngSource.Browser cBrowser)) [0, 0, 0]).buf =
      (List.range ([0, 0, 0] : List Nat).length).map envBrowser.entropy ∧
    (getrandom_inner envBrowser (some (RngSource.Browser cBrowser)) [0, 0, 0]).buf.length =
      ([0, 0, 0] : List Nat).length ∧
    ((getrandom_inner envBrowser (some (RngSource.Browser cBrowser)) [0, 0, 0]).calls.flatMap
        fun p => List.range' p.1 p.2) =
      List.range ([0, 0, 0] : List Nat).length :=
  claim_C1_browser_fill_partitions envBrowser cBrowser _ [0, 0, 0] rfl (Or.inl rfl)

/-- C2: on the browser path every provider call covers at most 65536 bytes;
a destination of length exactly 65536 produces exactly one call covering
[0,65536), and length 65537 produces exactly two calls with boundaries
[0,65536) and [65536,65537). -/
theorem claim_C2_chunk_boundaries (env : Env) (c : BrowserCrypto) (dest : List Nat)
    (h4 : env.usizeSize = 4) :
    (dest.length = 65536 →
      (getrandom_inner env (some (RngSource.Browser c)) dest).calls = [(0, 65536)]) ∧
    (dest.length = 65537 →
      (getrandom_inner env (some (RngSource.Browser c)) dest).calls =
        [(0, 65536), (65536, 1)]) ∧
    ∀ p ∈ (getrandom_inner env (some (RngSource.Browser c)) dest).calls,
      p.2 ≤ 65536 := by
  rw [getrandom_inner_cached env (RngSource.Browser c) dest h4, fillDispatch_browser]
  dsimp only
  refine ⟨fun h => ?_, fun h => ?_, fun p hp => ?_⟩
  · rw [h]
    simp [chunkSpecs]
  · rw [h]
    simp [chunkSpecs]
  · exact (chunkSpecs_bounds dest.length 0 p hp).2

/-- Witness for C2: concrete destinations of lengths 65536 and 65537. -/
theorem claim_C2_chunk_boundaries_witness :
    (List.replicate 65536 (0 : Nat)).length = 65536 ∧
    (getrandom_inner envBrowser (some (RngSource.Browser cBrowser))
        (List.replicate 65536 0)).calls = [(0, 65536)] ∧
    (List.replicate 65537 (0 : Nat)).length = 65537 ∧
    (getrandom_inner envBrowser (some (RngSource.Browser cBrowser))
        (List.replicate 65537 0)).calls = [(0, 65536), (65536, 1)] :=
  ⟨List.length_replicate 65536 0,
   (claim_C2_chunk_boundaries envBrowser cBrowser (List.replicate 65536 0) rfl).1
     (List.length_replicate 65536 0),
   List.length_replicate 65537 0,
   (claim_C2_chunk_boundaries envBrowser cBrowser (List.replicate 65537 0) rfl).2.1
     (List.length_replicate 65537 0)⟩

/-- C3: with a browser-style global present, resolution fails with
`CryptoUndefined` iff both the standard `crypto` and legacy `msCrypto`
properties are undefined, and fails with `GetRandomValuesUndefined` iff a
capability object was selected but its `getRandomValues` method is
undefined. -/
theorem claim_C3_error_taxonomy (env : Env) (s : Self_)
    (hs : env.get_self = some s) :
    (getrandom_init env = Except.error Error.cryptoUndefined ↔
      s.crypto.is_undefined = true ∧ s.ms_crypto.is_undefined = true) ∧
    (getrandom_init env = Except.error Error.getRandomValuesUndefined ↔
      ∃ c, selectCrypto s = Except.ok c ∧ c.grvFnUndefined = true) := by
  obtain ⟨cr, ms⟩ := s
  cases cr with
  | undefinedVal =>
    cases ms with
    | undefinedVal =>
      simp [getrandom_init, hs, selectCrypto, JsValue.is_undefined]
    | definedVal c =>
      cases hg : c.grvFnUndefined <;>
        simp [getrandom_init, hs, selectCrypto, JsValue.is_undefined, hg]
  | definedVal c =>
    cases ms with
    | undefinedVal =>
      cases hg : c.grvFnUndefined <;>
        simp [getrandom_init, hs, selectCrypto, JsValue.is_undefined, hg]
    | definedVal c2 =>
      cases hg : c.grvFnUndefined <;>
        simp [getrandom_init, hs, selectCrypto, JsValue.is_undefined, hg]

/-- Witness for C3 in the environment where both properties are undefined. -/
theorem claim_C3_error_taxonomy_witness :
    (getrandom_init envNoCrypto = Except.error Error.cryptoUndefined ↔
      (JsValue.undefinedVal).is_undefined = true ∧
        (JsValue.undefinedVal).is_undefined = true) ∧
    (getrandom_init envNoCrypto = Except.error Error.getRandomValuesUndefined ↔
      ∃ c, selectCrypto ⟨JsValue.undefinedVal, JsValue.undefinedVal⟩ = Except.ok c ∧
        c.grvFnUndefined = true) :=
  claim_C3_error_taxonomy envNoCrypto ⟨JsValue.undefinedVal, JsValue.undefinedVal⟩ rfl

/-- C4: when both candidate properties are defined, the selection picks the
standard `crypto` object (and resolution succeeds with it when its fill
method is present); when `crypto` is undefined but `msCrypto` is defined
and functional, resolution succeeds using the `msCrypto` object. -/
theorem claim_C4_standard_over_legacy (env : Env) (s : Self_)
    (hs : env.get_self = some s) :
    (∀ c c2, s.crypto = JsValue.definedVal c → s.ms_crypto = JsValue.definedVal c2 →
      selectCrypto s = Except.ok c ∧
      (c.grvFnUndefined = false →
        getrandom_init env = Except.ok (RngSource.Browser c))) ∧
    (∀ c2, s.crypto = JsValue.undefinedVal → s.ms_crypto = JsValue.definedVal c2 →
      c2.grvFnUndefined = false →
      getrandom_init env = Except.ok (RngSource.Browser c2)) := by
  obtain ⟨cr, ms⟩ := s
  constructor
  · intro c c2 h1 h2
    simp only at h1 h2
    subst h1
    subst h2
    constructor
    · rfl
    · intro hg
      simp [getrandom_init, hs, selectCrypto, hg]
  · intro c2 h1 h2 hg
    simp only at h1 h2
    subst h1
    subst h2
    simp [getrandom_init, hs, selectCrypto, hg]

/-- Witness for C4: the tie-break with both objects present, and the legacy
fallback with only `msCrypto` present. -/
theorem claim_C4_standard_over_legacy_witness :
    selectCrypto ⟨JsValue.definedVal ⟨false, 1⟩, JsValue.definedVal ⟨false, 2⟩⟩ =
      Except.ok ⟨false, 1⟩ ∧
    getrandom_init envBothCrypto = Except.ok (RngSource.Browser ⟨false, 1⟩) ∧
    getrandom_init envMsOnly = Except.ok (RngSource.Browser ⟨false, 2⟩) :=
  ⟨((claim_C4_standard_over_legacy envBothCrypto
      ⟨JsValue.definedVal ⟨false, 1⟩, JsValue.definedVal ⟨false, 2⟩⟩ rfl).1
      ⟨false, 1⟩ ⟨false, 2⟩ rfl rfl).1,
   ((claim_C4_standard_over_legacy envBothCrypto
      ⟨JsValue.definedVal ⟨false, 1⟩, JsValue.definedVal ⟨false, 2⟩⟩ rfl).1
      ⟨false, 1⟩ ⟨false, 2⟩ rfl rfl).2 rfl,
   (claim_C4_standard_over_legacy envMsOnly
      ⟨JsValue.undefinedVal, JsValue.definedVal ⟨false, 2⟩⟩ rfl).2
      ⟨false, 2⟩ rfl rfl rfl⟩

/-- Every call of a sequence that starts from a populated cache slot runs
zero probes and leaves the slot unchanged. -/
theorem runCalls_cached (env : Env) (s : RngSource) (h4 : env.usizeSize = 4) :
    ∀ dests, ∀ r ∈ runCalls env (some s) dests, r.initRuns = 0 ∧ r.cache = some s := by
  intro dests
  induction dests with
  | nil =>
    intro r hr
    simp [runCalls] at hr
  | cons d ds ih =>
    intro r hr
    simp only [runCalls] at hr
    rw [getrandom_inner_cached env s d h4] at hr
    rcases List.mem_cons.mp hr with h | h
    · subst h
      exact ⟨rfl, rfl⟩
    · exact ih r h

/-- C5: the first successful call stores the resolved handle in the cache,
and every subsequent call in the same context runs zero probes and keeps
exactly the same cached handle. -/
theorem claim_C5_idempotent_caching (env : Env) (s : RngSource) (dest : List Nat)
    (dests : List (List Nat)) (h4 : env.usizeSize = 4)
    (hres : getrandom_init env = Except.ok s) :
    (getrandom_inner env none dest).cache = some s ∧
    (getrandom_inner env none dest).initRuns = 1 ∧
    ∀ r ∈ runCalls env (some s) dests, r.initRuns = 0 ∧ r.cache = some s := by
  rw [getrandom_inner_resolve_ok env s dest h4 hres]
  exact ⟨rfl, rfl, runCalls_cached env s h4 dests⟩

/-- Witness for C5: one resolving call, then one cached call. -/
theorem claim_C5_idempotent_caching_witness :
    (getrandom_inner envBrowser none [0]).cache = some (RngSource.Browser cBrowser) ∧
    (getrandom_inner envBrowser none [0]).initRuns = 1 ∧
    (getrandom_inner envBrowser (some (RngSource.Browser cBrowser)) [0, 0]).initRuns = 0 ∧
    (getrandom_inner envBrowser (some (RngSource.Browser cBrowser)) [0, 0]).cache =
      some (RngSource.Browser cBrowser) :=
  ⟨(claim_C5_idempotent_caching envBrowser (RngSource.Browser cBrowser) [0] [[0, 0]]
      rfl rfl).1,
   (claim_C5_idempotent_caching envBrowser (RngSource.Browser cBrowser) [0] [[0, 0]]
      rfl rfl).2.1,
   (claim_C5_idempotent_caching envBrowser (RngSource.Browser cBrowser) [0] [[0, 0]]
      rfl rfl).2.2 _ (List.mem_cons_self _ _)⟩

/-- C6: a failed resolution is not cached — the failing call leaves the
slot empty, and the next call in the same context runs the probe again and
fails the same way. -/
theorem claim_C6_failures_not_cached (env : Env) (er : Error) (dest dest2 : List Nat)
    (h4 : env.usizeSize = 4) (hres : getrandom_init env = Except.error er) :
    (getrandom_inner env none dest).outcome = Outcome.failed er ∧
    (getrandom_inner env none dest).cache = none ∧
    (getrandom_inner env none dest).initRuns = 1 ∧
    (getrandom_inner env (getrandom_inner env none dest).cache dest2).outcome =
      Outcome.failed er ∧
    (getrandom_inner env (getrandom_inner env none dest).cache dest2).initRuns = 1 := by
  have h1 : getrandom_inner env none dest = ⟨Outcome.failed er, dest, none, 1, []⟩ := by
    unfold getrandom_inner
    rw [if_pos h4, hres]
  have h2 : getrandom_inner env none dest2 = ⟨Outcome.failed er, dest2, none, 1, []⟩ := by
    unfold getrandom_inner
    rw [if_pos h4, hres]
  rw [h1]
  dsimp only
  rw [h2]
  exact ⟨rfl, rfl, rfl, rfl, rfl⟩

/-- Witness for C6 in the environment with no crypto capability. -/
theorem claim_C6_failures_not_cached_witness :
    (getrandom_inner envNoCrypto none [1]).outcome =
      Outcome.failed Error.cryptoUndefined ∧
    (getrandom_inner envNoCrypto none [1]).cache = none ∧
    (getrandom_inner envNoCrypto none [1]).initRuns = 1 ∧
    (getrandom_inner envNoCrypto (getrandom_inner envNoCrypto none [1]).cache [2]).outcome =
      Outcome.failed Error.cryptoUndefined ∧
    (getrandom_inner envNoCrypto (getrandom_inner envNoCrypto none [1]).cache [2]).initRuns =
      1 :=
  claim_C6_failures_not_cached envNoCrypto Error.cryptoUndefined [1] [2] rfl rfl

/-- Counterexample to C7 as stated: on the Node path a zero-length request
still issues one provider call — `random_fill_sync` is invoked
unconditionally, here on an empty buffer — so the number of provider calls
is one, not zero. -/
theorem claim_C7_counterexample :
    (getrandom_inner envNode (some (RngSource.Node ⟨0⟩)) []).outcome = Outcome.ok ∧
    (getrandom_inner envNode (some (RngSource.Node ⟨0⟩)) []).calls = [(0, 0)] ∧
    (getrandom_inner envNode (some (RngSource.Node ⟨0⟩)) []).calls ≠ [] :=
  ⟨rfl, rfl, by decide⟩

/-- C7 amended: a zero-length request succeeds with the buffer untouched;
the Browser path performs zero chunk iterations and hence zero provider
calls, while the Node path still issues exactly one provider call, on an
empty buffer. -/
theorem claim_C7_zero_length (env : Env) (s : RngSource) (h4 : env.usizeSize = 4) :
    (getrandom_inner env (some s) []).outcome = Outcome.ok ∧
    (getrandom_inner env (some s) []).buf = [] ∧
    (∀ c, s = RngSource.Browser c → (getrandom_inner env (some s) []).calls = []) ∧
    ∀ m, s = RngSource.Node m → (getrandom_inner env (some s) []).calls = [(0, 0)] := by
  rw [getrandom_inner_cached env s [] h4]
  cases s with
  | Node m =>
    refine ⟨rfl, rfl, fun c hc => ?_, fun m2 hm => rfl⟩
    cases hc
  | Browser c =>
    rw [fillDispatch_browser]
    refine ⟨rfl, rfl, fun c2 hc => ?_, fun m hm => by cases hm⟩
    dsimp only
    simp [chunkSpecs]

/-- Witness for the amended C7: zero-length requests on the browser and
node paths. -/
theorem claim_C7_zero_length_witness :
    (getrandom_inner envBrowser (some (RngSource.Browser cBrowser)) []).outcome =
      Outcome.ok ∧
    (getrandom_inner envBrowser (some (RngSource.Browser cBrowser)) []).calls = [] ∧
    (getrandom_inner envNode (some (RngSource.Node ⟨0⟩)) []).outcome = Outcome.ok ∧
    (getrandom_inner envNode (some (RngSource.Node ⟨0⟩)) []).calls = [(0, 0)] :=
  ⟨(claim_C7_zero_length envBrowser (RngSource.Browser cBrowser) rfl).1,
   (claim_C7_zero_length envBrowser (RngSource.Browser cBrowser) rfl).2.2.1 cBrowser rfl,
   (claim_C7_zero_length envNode (RngSource.Node ⟨0⟩) rfl).1,
   (claim_C7_zero_length envNode (RngSource.Node ⟨0⟩) rfl).2.2.2 ⟨0⟩ rfl⟩

/-- C8: every call first checks the target pointer width; when
`size_of::<usize>()` is not 4 the call panics before any resolution (zero
probe runs) or fill work (no provider calls), leaving the buffer and the
cache slot untouched. -/
theorem claim_C8_usize_assert (env : Env) (cache : Option RngSource)
    (dest : List Nat) (h : env.usizeSize ≠ 4) :
    getrandom_inner env cache dest = ⟨Outcome.panicked, dest, cache, 0, []⟩ := by
  unfold getrandom_inner
  rw [if_neg h]

/-- Witness for C8 on a 64-bit-pointer target. -/
theorem claim_C8_usize_assert_witness :
    getrandom_inner envWrongUsize none [1, 2] =
      ⟨Outcome.panicked, [1, 2], none, 0, []⟩ :=
  claim_C8_usize_assert envWrongUsize none [1, 2] (by decide)

/-- C9: whenever `getrandom_inner` returns an error the destination buffer
is left entirely unmodified and no provider call was issued; the error can
only arise from a resolution run on an empty cache slot. -/
theorem claim_C9_error_leaves_buffer (env : Env) (cache : Option RngSource)
    (dest : List Nat) (er : Error)
    (h : (getrandom_inner env cache dest).outcome = Outcome.failed er) :
    (getrandom_inner env cache dest).buf = dest ∧
    (getrandom_inner env cache dest).calls = [] ∧
    cache = none ∧ getrandom_init env = Except.error er := by
  by_cases h4 : env.usizeSize = 4
  · cases cache with
    | some s =>
      rw [getrandom_inner_cached env s dest h4] at h
      exact absurd h (by simp)
    | none =>
      cases hi : getrandom_init env with
      | ok s =>
        rw [getrandom_inner_resolve_ok env s dest h4 hi] at h
        exact absurd h (by simp)
      | error e2 =>
        have heq : getrandom_inner env none dest =
            ⟨Outcome.failed e2, dest, none, 1, []⟩ := by
          unfold getrandom_inner
          rw [if_pos h4, hi]
        rw [heq] at h ⊢
        have he : e2 = er := by simpa using h
        subst he
        exact ⟨rfl, rfl, rfl, rfl⟩
  · have heq : getrandom_inner env cache dest =
        ⟨Outcome.panicked, dest, cache, 0, []⟩ := by
      unfold getrandom_inner
      rw [if_neg h4]
    rw [heq] at h
    exact absurd h (by simp)

/-- Witness for C9: the failing resolution leaves a one-byte buffer
untouched. -/
theorem claim_C9_error_leaves_buffer_witness :
    (getrandom_inner envNoCrypto none [5]).buf = [5] ∧
    (getrandom_inner envNoCrypto none [5]).calls = [] ∧
    (none : Option RngSource) = none ∧
    getrandom_init envNoCrypto = Except.error Error.cryptoUndefined :=
  claim_C9_error_leaves_buffer envNoCrypto none [5] Error.cryptoUndefined rfl

/-- C10: every provider call issued on the browser path transfers a
strictly positive number of bytes — each chunk has length between 1 and
65536 — so no zero-length transfer array is ever passed to
`getRandomValues`. -/
theorem claim_C10_no_empty_chunks (env : Env) (c : BrowserCrypto)
    (cache : Option RngSource) (dest : List Nat) (h4 : env.usizeSize = 4)
    (hpath : cache = some (RngSource.Browser c) ∨
      (cache = none ∧ getrandom_init env = Except.ok (RngSource.Browser c))) :
    ∀ p ∈ (getrandom_inner env cache dest).calls, 1 ≤ p.2 ∧ p.2 ≤ 65536 := by
  have hcalls : (getrandom_inner env cache dest).calls = chunkSpecs 0 dest.length := by
    rcases hpath with hc | ⟨hc, hres⟩
    · subst hc
      rw [getrandom_inner_cached env (RngSource.Browser c) dest h4, fillDispatch_browser]
    · subst hc
      rw [getrandom_inner_resolve_ok env (RngSource.Browser c) dest h4 hres,
        fillDispatch_browser]
  rw [hcalls]
  exact fun p hp => chunkSpecs_bounds dest.length 0 p hp

/-- Witness for C10: the single chunk of a two-byte browser fill. -/
theorem claim_C10_no_empty_chunks_witness :
    (0, 2) ∈ (getrandom_inner envBrowser (some (RngSource.Browser cBrowser)) [7, 7]).calls ∧
    1 ≤ ((0, 2) : Nat × Nat).2 ∧ ((0, 2) : Nat × Nat).2 ≤ 65536 := by
  have hmem : (0, 2) ∈
      (getrandom_inner envBrowser (some (RngSource.Browser cBrowser)) [7, 7]).calls := by
    rw [getrandom_inner_cached envBrowser (RngSource.Browser cBrowser) [7, 7] rfl,
      fillDispatch_browser]
    simp [chunkSpecs]
  exact ⟨hmem,
    claim_C10_no_empty_chunks envBrowser cBrowser _ [7, 7] rfl (Or.inl rfl) (0, 2) hmem⟩

end Getrandom
